import Mathlib

/-!
Shallow embedding of the gesture-classification pipeline of the
hand-cricket repository (MediaPipeService in the unnamed service file and
the throttling gate in HandGestureDetector.tsx), together with theorems
settling the frozen claims about it.

Conventions of the embedding:
* Landmark coordinates are rationals (the source works on JS numbers; all
  thresholds are short decimals, and every comparison made by the source
  is order-only, so exact rationals model them faithfully).
* Timestamps are naturals (JS `Date.now()` milliseconds).  JS computes
  `now - last` as a possibly negative real; wherever the source compares
  such a difference against a positive bound we either cast to `ℚ` or use
  natural subtraction, noting that for `now < last` both the JS comparison
  and the `ℕ`-model comparison fail, so the models agree on all inputs.
* The JS object `gestureConfidence : {[key:number]:number}` is modelled as
  a total function `ℕ → ℕ`; an absent key reads as 0 in the source
  (`this.gestureConfidence[gesture] || 0`), which is exactly the total
  function picture.  The source's reset loop zeroes every tracked key
  other than the current gesture; in the total-function model this is the
  update that maps every `k ≠ g` to 0.
* `setTimeout` callbacks are modelled by recording their scheduled time in
  the state and applying the callback's effect lazily at the first later
  event; the program is single-threaded and the callbacks only mutate
  state that is next read by such an event, so the observable emissions
  are identical.
-/

namespace HandCricket

/-- A hand landmark: one normalized 3D point as produced by the pose model. -/
structure Landmark where
  x : ℚ
  y : ℚ
  z : ℚ
deriving DecidableEq

/-- Placeholder point used only for the (guarded, hence in-bounds) list
accesses `landmarks[i]` of the source. -/
def defaultLandmark : Landmark := ⟨0, 0, 0⟩

/-- Embedding of `MediaPipeService.isFingerExtended` (source lines 355-383).
The `mcpLandmark` and `wristLandmark` arguments are accepted and ignored
exactly as in the source body. -/
def isFingerExtended (tipLandmark pipLandmark mcpLandmark wristLandmark : Landmark)
    (isThumb : Bool := false) : Bool :=
  if isThumb then
    -- thumbUp: tip.y < pip.y - 0.05; notCurled: |tip.z - pip.z| < 0.1
    decide (tipLandmark.y < pipLandmark.y - 5/100) &&
      decide (|tipLandmark.z - pipLandmark.z| < 1/10)
  else
    -- isHigherThanPIP: tip.y < pip.y - 0.07; isForward: |tip.z - pip.z| < 0.07
    decide (tipLandmark.y < pipLandmark.y - 7/100) &&
      decide (|tipLandmark.z - pipLandmark.z| < 7/100)

/-- The five per-frame finger-extension flags of one Hand Observation. -/
structure FingerFlags where
  thumbUp : Bool
  indexExtended : Bool
  middleExtended : Bool
  ringExtended : Bool
  pinkyExtended : Bool
deriving DecidableEq

/-- Count of extended non-thumb fingers (source lines 327-331). -/
def extendedFingerCount (f : FingerFlags) : ℕ :=
  (if f.indexExtended then 1 else 0) +
  (if f.middleExtended then 1 else 0) +
  (if f.ringExtended then 1 else 0) +
  (if f.pinkyExtended then 1 else 0)

/-- The flag-to-code branch logic of `detectImprovedGesture`
(source lines 333-351), factored out over the five flags. -/
def detectGestureFromFlags (f : FingerFlags) : ℕ :=
  if f.thumbUp = true ∧ extendedFingerCount f = 0 then 6
  else if 4 ≤ extendedFingerCount f then 5
  else if 0 < extendedFingerCount f ∧ extendedFingerCount f ≤ 4 then extendedFingerCount f
  else 0

/-- The five `isFingerExtended` calls of `detectImprovedGesture`
(source lines 299-324): thumb uses landmarks 4 / 3 / 2, the other fingers
their tip / PIP / MCP indices, all with the wrist landmark 0. -/
def flagsOf (l : List Landmark) : FingerFlags :=
  let wrist := l.getD 0 defaultLandmark
  { thumbUp := isFingerExtended (l.getD 4 defaultLandmark) (l.getD 3 defaultLandmark)
      (l.getD 2 defaultLandmark) wrist true
    indexExtended := isFingerExtended (l.getD 8 defaultLandmark) (l.getD 6 defaultLandmark)
      (l.getD 5 defaultLandmark) wrist
    middleExtended := isFingerExtended (l.getD 12 defaultLandmark) (l.getD 10 defaultLandmark)
      (l.getD 9 defaultLandmark) wrist
    ringExtended := isFingerExtended (l.getD 16 defaultLandmark) (l.getD 14 defaultLandmark)
      (l.getD 13 defaultLandmark) wrist
    pinkyExtended := isFingerExtended (l.getD 20 defaultLandmark) (l.getD 18 defaultLandmark)
      (l.getD 17 defaultLandmark) wrist }

/-- Embedding of `MediaPipeService.detectImprovedGesture` (source lines
295-352).  A missing (`none`) or short (< 21 entries) landmark list takes
the early `return 0` of line 297. -/
def detectImprovedGesture (landmarks : Option (List Landmark)) : ℕ :=
  match landmarks with
  | none => 0
  | some l => if l.length < 21 then 0 else detectGestureFromFlags (flagsOf l)

/-- The all-false flag record. -/
def noFlags : FingerFlags := ⟨false, false, false, false, false⟩

/-- Observable finger-extension flags of one frame: for a missing or short
landmark list the source returns before any `isFingerExtended` call, so no
finger is ever flagged extended — all-false is the observable outcome. -/
def handFlags (landmarks : Option (List Landmark)) : FingerFlags :=
  match landmarks with
  | none => noFlags
  | some l => if l.length < 21 then noFlags else flagsOf l

/-- Classifier as worded by the spec (claim C1), for refinement comparison
with `detectGestureFromFlags`: first match wins — 6 if thumbUp and exactly
0 non-thumb fingers extended; else 5 if the count is ≥ 4; else the count
`k` itself if `1 ≤ k ≤ 4`; else 0. -/
def specClassify (f : FingerFlags) : ℕ :=
  let k := extendedFingerCount f
  if f.thumbUp = true ∧ k = 0 then 6
  else if 4 ≤ k then 5
  else if 1 ≤ k ∧ k ≤ 4 then k
  else 0

/-- C1: for every assignment of the five finger-extension flags, the
gesture classifier agrees with the spec's first-match-wins description:
6 when thumbUp with zero non-thumb fingers extended, else 5 when ≥ 4
non-thumb fingers are extended, else the count `k` when `1 ≤ k ≤ 4`,
else 0. -/
theorem detectGestureFromFlags_eq_spec :
    ∀ t i m r p : Bool, detectGestureFromFlags ⟨t, i, m, r, p⟩ = specClassify ⟨t, i, m, r, p⟩ := by
  decide

/-- C4: a non-thumb finger is classified extended iff
`tip.y < pip.y - 0.07` and `|tip.z - pip.z| < 0.07`, and the thumb is
classified up iff `tip.y < pip.y - 0.05` and `|tip.z - pip.z| < 0.1`. -/
theorem isFingerExtended_iff (tip pip mcp wrist : Landmark) :
    (isFingerExtended tip pip mcp wrist false = true ↔
      tip.y < pip.y - 7/100 ∧ |tip.z - pip.z| < 7/100) ∧
    (isFingerExtended tip pip mcp wrist true = true ↔
      tip.y < pip.y - 5/100 ∧ |tip.z - pip.z| < 1/10) := by
  constructor <;> simp [isFingerExtended]

/-- C5: a missing, empty, or shorter-than-21 landmark list yields gesture
code 0 and flags no finger extended; the source returns the degenerate
answer rather than raising an error. -/
theorem detectImprovedGesture_malformed (landmarks : Option (List Landmark))
    (h : ∀ l, landmarks = some l → l.length < 21) :
    detectImprovedGesture landmarks = 0 ∧ handFlags landmarks = noFlags := by
  cases landmarks with
  | none => exact ⟨rfl, rfl⟩
  | some l =>
    have hl : l.length < 21 := h l rfl
    simp [detectImprovedGesture, handFlags, hl]

/-- C5 witness: the spec's example of a malformed observation with 10
landmarks (all at the origin) yields code 0 and all-false flags. -/
theorem detectImprovedGesture_malformed_witness :
    detectImprovedGesture (some (List.replicate 10 defaultLandmark)) = 0 ∧
      handFlags (some (List.replicate 10 defaultLandmark)) = noFlags :=
  detectImprovedGesture_malformed (some (List.replicate 10 defaultLandmark))
    (fun l hl => by cases hl; decide)

/-! ### Confidence debouncer (`processGestureWithConfidence`, source lines 266-293) -/

/-- Source field `gestureThreshold` (line 14). -/
def gestureThreshold : ℕ := 3

/-- State of the confidence debouncer: `conf` models the JS object
`gestureConfidence` (absent keys read as 0), `last` is
`lastGestureDetected` (0 = none), and `pending` holds the scheduled
times of the not-yet-elapsed 1-second reset callbacks created on firing
(source lines 287-291). -/
structure DebState where
  conf : ℕ → ℕ
  last : ℕ
  pending : List ℕ

/-- Embedding of `processGestureWithConfidence` for a frame processed at
time `t` carrying gesture `g`: zero every streak other than `g`'s,
increment `g`'s, and fire (invoke the gesture callback, returned as the
`Bool`) exactly when the new streak meets the threshold and `g` differs
from the last-fired code; firing records `g` as last-fired and schedules
the reset callback for `t + 1000`. -/
def processGestureWithConfidence (s : DebState) (t g : ℕ) : DebState × Bool :=
  let conf' : ℕ → ℕ := fun k => if k = g then s.conf g + 1 else 0
  if gestureThreshold ≤ conf' g ∧ s.last ≠ g then
    ({ conf := conf', last := g, pending := (t + 1000) :: s.pending }, true)
  else
    ({ conf := conf', last := s.last, pending := s.pending }, false)

/-- Effect of any 1-second reset callbacks due by time `t` (source lines
287-291): each due callback sets `lastGestureDetected = 0` and empties
`gestureConfidence`; the effect is idempotent, so applying all due
callbacks at once is the same as applying them one by one. -/
def applyCooldown (s : DebState) (t : ℕ) : DebState :=
  if s.pending.any (fun d => decide (d ≤ t)) then
    { conf := fun _ => 0, last := 0, pending := s.pending.filter (fun d => decide (t < d)) }
  else s

/-- Gesture dispatch of `onResults` (source lines 212-220): the debouncer
is invoked only for a nonzero gesture code; a zero code is skipped. -/
def onGesture (s : DebState) (t g : ℕ) : DebState × Bool :=
  if 0 < g then processGestureWithConfidence s t g else (s, false)

/-- One full debouncer-relevant step for a processed frame at time `t`
with gesture code `g`: any due reset callback runs first (it was
scheduled earlier on the same single-threaded event loop), then the
frame's gesture is dispatched. -/
def debStep (s : DebState) (t g : ℕ) : DebState × Bool :=
  let s1 := applyCooldown s t
  onGesture s1 t g

/-- Run the debouncer over a list of timed frames, collecting the emitted
gesture events as `(time, gesture)` pairs. -/
def debRun (s : DebState) : List (ℕ × ℕ) → DebState × List (ℕ × ℕ)
  | [] => (s, [])
  | (t, g) :: rest =>
    let (s2, fired) := debStep s t g
    let (s3, outs) := debRun s2 rest
    (s3, (if fired then [(t, g)] else []) ++ outs)

/-- Closed-form characterization of `processGestureWithConfidence`
(the let-bound updated map applied at `g` reads `s.conf g + 1`). -/
theorem processGestureWithConfidence_eq (s : DebState) (t g : ℕ) :
    processGestureWithConfidence s t g =
      if gestureThreshold ≤ s.conf g + 1 ∧ s.last ≠ g then
        (⟨fun k => if k = g then s.conf g + 1 else 0, g, (t + 1000) :: s.pending⟩, true)
      else
        (⟨fun k => if k = g then s.conf g + 1 else 0, s.last, s.pending⟩, false) := by
  unfold processGestureWithConfidence
  simp

/-- C2: on a processed frame with nonzero gesture `g`, the debouncer
zeroes every other code's streak, increments `streak[g]` by one, and the
gesture event (the single callback invocation of that frame) fires iff
the new streak meets the threshold 3 and `g` differs from the last-fired
code; a frame that does not meet the threshold emits nothing. -/
theorem processGestureWithConfidence_spec (s : DebState) (t g : ℕ) (hg : 0 < g) :
    (∀ k, k ≠ g → (onGesture s t g).1.conf k = 0) ∧
    (onGesture s t g).1.conf g = s.conf g + 1 ∧
    ((onGesture s t g).2 = true ↔ gestureThreshold ≤ s.conf g + 1 ∧ s.last ≠ g) := by
  have hdis : onGesture s t g = processGestureWithConfidence s t g := by
    simp [onGesture, hg]
  rw [hdis, processGestureWithConfidence_eq]
  by_cases hc : gestureThreshold ≤ s.conf g + 1 ∧ s.last ≠ g
  · rw [if_pos hc]
    exact ⟨fun k hk => by simp [hk], by simp, by simpa using hc⟩
  · rw [if_neg hc]
    exact ⟨fun k hk => by simp [hk], by simp, by simpa using hc⟩

/-- C2 witness: from a fresh state, the second consecutive frame of
gesture 2 increments its streak to 2 without firing, every other streak
reads 0, and the firing condition is exactly "streak reaches 3 and
differs from last-fired". -/
theorem processGestureWithConfidence_spec_witness :
    (onGesture ⟨fun k => if k = 2 then 1 else 0, 0, []⟩ 500 2).1.conf 5 = 0 ∧
    (onGesture ⟨fun k => if k = 2 then 1 else 0, 0, []⟩ 500 2).1.conf 2 = 2 ∧
    ((onGesture ⟨fun k => if k = 2 then 1 else 0, 0, []⟩ 500 2).2 = true ↔
      gestureThreshold ≤ 2 ∧ (0 : ℕ) ≠ 2) := by
  obtain ⟨h1, h2, h3⟩ :=
    processGestureWithConfidence_spec ⟨fun k => if k = 2 then 1 else 0, 0, []⟩ 500 2
      (by decide)
  exact ⟨h1 5 (by decide), h2, h3⟩

/-- C6: a processed frame carrying gesture code 0 leaves the debouncer's
state untouched — no streak changes and the last-fired code persists —
because the dispatch in `onResults` only invokes the debouncer for a
positive code. -/
theorem onGesture_zero (s : DebState) (t : ℕ) : onGesture s t 0 = (s, false) := by
  simp [onGesture]

/-- Helper for C3: while the last-fired code equals the held gesture `g`
and the only pending reset is the one scheduled at the firing, frames of
`g` arriving before the reset time emit nothing and preserve that
configuration. -/
theorem debRun_hold (g t0 : ℕ) (hg : 0 < g) :
    ∀ (ts : List ℕ) (s : DebState), s.last = g → s.pending = [t0 + 1000] →
      (∀ t ∈ ts, t < t0 + 1000) →
      (debRun s (ts.map fun t => (t, g))).2 = [] ∧
      (debRun s (ts.map fun t => (t, g))).1.last = g ∧
      (debRun s (ts.map fun t => (t, g))).1.pending = [t0 + 1000] := by
  intro ts
  induction ts with
  | nil => intro s h1 h2 _; exact ⟨rfl, h1, h2⟩
  | cons t ts ih =>
    intro s h1 h2 hts
    have ht : t < t0 + 1000 := hts t (List.mem_cons_self t ts)
    have hcool : applyCooldown s t = s := by
      unfold applyCooldown
      rw [h2]
      simp [Nat.not_le.mpr ht, -List.any_eq_true]
    have hfire : ¬ (gestureThreshold ≤ s.conf g + 1 ∧ s.last ≠ g) := by
      rw [h1]; simp
    have hstep : debStep s t g =
        (⟨fun k => if k = g then s.conf g + 1 else 0, s.last, s.pending⟩, false) := by
      unfold debStep onGesture
      rw [hcool, if_pos hg, processGestureWithConfidence_eq, if_neg hfire]
    have := ih (⟨fun k => if k = g then s.conf g + 1 else 0, s.last, s.pending⟩ : DebState)
      (by simpa using h1) (by simpa using h2) (fun u hu => hts u (List.mem_cons_of_mem t hu))
    simp only [List.map_cons, debRun, hstep]
    exact ⟨by simp [this.1], this.2.1, this.2.2⟩

/-- C3: after gesture `g` fires at time `t0` (so the state has last-fired
`g` and a reset scheduled for `t0 + 1000`), (a) frames holding the same
pose strictly before `t0 + 1000` emit no event; (b) once the 1-second
cool-down elapses, the reset clears the last-fired code to none, all
streaks to zero, and the pending callback; and (c) three frames of the
same held pose at or after `t0 + 1000` fire the gesture again, exactly
once, at the third frame. -/
theorem debouncer_cooldown (g t0 : ℕ) (s : DebState) (hg : 0 < g)
    (hlast : s.last = g) (hpend : s.pending = [t0 + 1000]) :
    (∀ ts : List ℕ, (∀ t ∈ ts, t < t0 + 1000) →
      (debRun s (ts.map fun t => (t, g))).2 = []) ∧
    (∀ t, t0 + 1000 ≤ t → applyCooldown s t = ⟨fun _ => 0, 0, []⟩) ∧
    (∀ t1 t2 t3, t0 + 1000 ≤ t1 → t1 ≤ t2 → t2 ≤ t3 →
      (debRun s [(t1, g), (t2, g), (t3, g)]).2 = [(t3, g)]) := by
  have hreset : ∀ t, t0 + 1000 ≤ t → applyCooldown s t = ⟨fun _ => 0, 0, []⟩ := by
    intro t ht
    unfold applyCooldown
    rw [hpend]
    simp [ht, Nat.not_lt.mpr ht, -List.any_eq_true]
  refine ⟨fun ts hts => (debRun_hold g t0 hg ts s hlast hpend hts).1, hreset, ?_⟩
  intro t1 t2 t3 h1 _ _
  have hgn : g ≠ 0 := Nat.pos_iff_ne_zero.mp hg
  have hcool0 : ∀ u : ℕ, ∀ s' : DebState, s'.pending = [] → applyCooldown s' u = s' := by
    intro u s' hp
    unfold applyCooldown
    rw [hp]
    simp
  -- step at t1: cool-down reset runs, then streak restarts at 1
  have hs1 : debStep s t1 g =
      ((⟨fun k => if k = g then 1 else 0, 0, []⟩ : DebState), false) := by
    unfold debStep onGesture
    rw [hreset t1 h1, if_pos hg, processGestureWithConfidence_eq]
    have : ¬ (gestureThreshold ≤ (0 : ℕ) + 1 ∧ (0 : ℕ) ≠ g) := by
      simp [gestureThreshold]
    rw [if_neg this]
  -- step at t2: streak 2, still below threshold
  have hs2 : debStep (⟨fun k => if k = g then 1 else 0, 0, []⟩ : DebState) t2 g =
      ((⟨fun k => if k = g then 2 else 0, 0, []⟩ : DebState), false) := by
    unfold debStep onGesture
    rw [hcool0 t2 _ rfl, if_pos hg, processGestureWithConfidence_eq]
    have : ¬ (gestureThreshold ≤ (if g = g then 1 else 0) + 1 ∧ (0 : ℕ) ≠ g) := by
      simp [gestureThreshold]
    rw [if_neg this]
    congr 1
    congr 1
    funext k
    by_cases hk : k = g <;> simp [hk]
  -- step at t3: streak 3 reaches the threshold, last-fired 0 ≠ g: fire
  have hs3 : debStep (⟨fun k => if k = g then 2 else 0, 0, []⟩ : DebState) t3 g =
      ((⟨fun k => if k = g then 3 else 0, g, [t3 + 1000]⟩ : DebState), true) := by
    unfold debStep onGesture
    rw [hcool0 t3 _ rfl, if_pos hg, processGestureWithConfidence_eq]
    have : gestureThreshold ≤ (if g = g then 2 else 0) + 1 ∧ (0 : ℕ) ≠ g := by
      simp [gestureThreshold, Ne.symm hgn]
    rw [if_pos this]
    congr 1
    congr 1
    funext k
    by_cases hk : k = g <;> simp [hk]
  simp only [debRun, hs1, hs2, hs3]
  simp

/-- C3 witness: with gesture 5 just fired at time 1000 (streak 3, reset
scheduled for 2000), frames of the same pose at 1100 and 1500 emit
nothing; at time 2000 the cool-down clears the state; and frames at 2000,
2100, 2200 fire gesture 5 exactly once, at time 2200. -/
theorem debouncer_cooldown_witness :
    (debRun ⟨fun k => if k = 5 then 3 else 0, 5, [2000]⟩
      ([1100, 1500].map fun t => (t, 5))).2 = [] ∧
    applyCooldown ⟨fun k => if k = 5 then 3 else 0, 5, [2000]⟩ 2000 = ⟨fun _ => 0, 0, []⟩ ∧
    (debRun ⟨fun k => if k = 5 then 3 else 0, 5, [2000]⟩
      [(2000, 5), (2100, 5), (2200, 5)]).2 = [(2200, 5)] := by
  obtain ⟨ha, hb, hc⟩ :=
    debouncer_cooldown 5 1000 ⟨fun k => if k = 5 then 3 else 0, 5, [2000]⟩
      (by decide) rfl rfl
  exact ⟨ha [1100, 1500] (by decide), hb 2000 (by decide),
    hc 2000 2100 2200 (by decide) (by decide) (by decide)⟩

/-! ### Frame-rate limiter (`initializeCamera`'s `onFrame`, source lines 76-88) -/

/-- Source field `processingFrameRate` (line 18). -/
def processingFrameRate : ℕ := 15

/-- Embedding of the `onFrame` gate: a frame arriving at `now` is
forwarded to `hands.send` only when `now - lastFrameProcessed` exceeds
`1000 / processingFrameRate` milliseconds, in which case
`lastFrameProcessed` is updated to `now`; otherwise the frame is dropped
and nothing changes.  The JS subtraction and division are exact here
(rational comparison); `Date.now()` timestamps are naturals. -/
def frameGateStep (lastFrameProcessed now : ℕ) : ℕ × Bool :=
  if (1000 : ℚ) / processingFrameRate < (now : ℚ) - (lastFrameProcessed : ℚ) then
    (now, true)
  else
    (lastFrameProcessed, false)

/-- Run the limiter over the arrival times of a stream of frames,
returning the final `lastFrameProcessed` and the times of the forwarded
frames. -/
def runLimiter (lastFrameProcessed : ℕ) : List ℕ → ℕ × List ℕ
  | [] => (lastFrameProcessed, [])
  | t :: ts =>
    let (last', keep) := frameGateStep lastFrameProcessed t
    let (lastF, outs) := runLimiter last' ts
    (lastF, if keep then t :: outs else outs)

/-- A forwarded frame is at least 67 ms after the previous forwarded
frame: `(now : ℚ) - last > 1000/15` on natural timestamps forces
`last + 67 ≤ now`. -/
theorem frameGate_gap (last now : ℕ)
    (h : (1000 : ℚ) / processingFrameRate < (now : ℚ) - (last : ℚ)) :
    last + 67 ≤ now := by
  by_contra hc
  have hn : now ≤ last + 66 := by omega
  have hq : (now : ℚ) ≤ (last : ℚ) + 66 := by exact_mod_cast hn
  rw [show processingFrameRate = 15 from rfl] at h
  norm_num at h
  linarith

/-- Forwarded times of a limiter run: each is ≥ `last + 67` and
consecutive ones are ≥ 67 ms apart. -/
theorem runLimiter_chain (ts : List ℕ) : ∀ last : ℕ,
    List.Chain' (fun a b => a + 67 ≤ b) (runLimiter last ts).2 ∧
    ∀ o ∈ (runLimiter last ts).2, last + 67 ≤ o := by
  induction ts with
  | nil => intro last; exact ⟨List.chain'_nil, by simp [runLimiter]⟩
  | cons t ts ih =>
    intro last
    by_cases h : (1000 : ℚ) / processingFrameRate < (t : ℚ) - (last : ℚ)
    · have hstep : frameGateStep last t = (t, true) := by
        unfold frameGateStep; rw [if_pos h]
      obtain ⟨hchain, hbound⟩ := ih t
      have hgap : last + 67 ≤ t := frameGate_gap last t h
      rcases hres : runLimiter t ts with ⟨lastF, outs⟩
      rw [hres] at hchain hbound
      have hrun : runLimiter last (t :: ts) = (lastF, t :: outs) := by
        simp [runLimiter, hstep, hres]
      rw [hrun]
      refine ⟨?_, ?_⟩
      · cases outs with
        | nil => simp
        | cons a l =>
          exact List.Chain'.cons (hbound a (List.mem_cons_self a l)) hchain
      · intro o ho
        rcases List.mem_cons.mp ho with h1 | h2
        · omega
        · have := hbound o h2; omega
    · have hstep : frameGateStep last t = (last, false) := by
        unfold frameGateStep; rw [if_neg h]
      rcases hres : runLimiter last ts with ⟨lastF, outs⟩
      have hrun : runLimiter last (t :: ts) = (lastF, outs) := by
        simp [runLimiter, hstep, hres]
      rw [hrun]
      have := ih last
      rw [hres] at this
      exact this

/-- Counting lemma: a list whose members pairwise increase by at least 67
has at most `n` members in any half-open window `[lo, lo + 67 * n)`. -/
theorem gap_window_count : ∀ (l : List ℕ), List.Pairwise (fun a b => a + 67 ≤ b) l →
    ∀ (n lo hi : ℕ), hi ≤ lo + 67 * n →
      (l.filter fun x => decide (lo ≤ x) && decide (x < hi)).length ≤ n := by
  intro l
  induction l with
  | nil => intro _ n lo hi _; simp
  | cons x rest ih =>
    intro hpw n lo hi hwin
    have hx : ∀ y ∈ rest, x + 67 ≤ y := (List.pairwise_cons.mp hpw).1
    have hrest : List.Pairwise (fun a b => a + 67 ≤ b) rest := (List.pairwise_cons.mp hpw).2
    by_cases hin : lo ≤ x ∧ x < hi
    · have hn : ∃ m, n = m + 1 := by
        rcases n with _ | m
        · omega
        · exact ⟨m, rfl⟩
      obtain ⟨m, rfl⟩ := hn
      have hfx : (decide (lo ≤ x) && decide (x < hi)) = true := by
        simp [hin.1, hin.2]
      have hcongr : (rest.filter fun y => decide (lo ≤ y) && decide (y < hi)) =
          rest.filter fun y => decide (lo + 67 ≤ y) && decide (y < hi) := by
        apply List.filter_congr
        intro y hy
        have := hx y hy
        have h1 : lo ≤ y := by omega
        have h2 : lo + 67 ≤ y := by omega
        simp [h1, h2]
      simp only [List.filter_cons, hfx, if_pos, List.length_cons]
      rw [hcongr]
      have := ih hrest m (lo + 67) hi (by omega)
      omega
    · have hfx : (decide (lo ≤ x) && decide (x < hi)) = false := by
        rcases Decidable.not_and_iff_or_not.mp hin with h | h <;> simp [h]
      simp only [List.filter_cons, hfx, Bool.false_eq_true, if_false]
      exact ih hrest n lo hi hwin

/-- C7: (a) a frame arriving less than 1000/15 ms after the last
processed frame is dropped — not forwarded and with `lastFrameProcessed`
unchanged; (b) consequently, in any run of the limiter, any 1-second
window `[t0, t0 + 1000)` contains at most 15 forwarded frames. -/
theorem frameRateLimiter_spec (last now : ℕ)
    (h : (now : ℚ) - (last : ℚ) < 1000 / processingFrameRate)
    (ts : List ℕ) (start t0 : ℕ) :
    frameGateStep last now = (last, false) ∧
    ((runLimiter start ts).2.filter fun x =>
        decide (t0 ≤ x) && decide (x < t0 + 1000)).length ≤ 15 := by
  constructor
  · unfold frameGateStep
    rw [if_neg (by linarith)]
  · have hchain := (runLimiter_chain ts start).1
    have hpw : List.Pairwise (fun a b => a + 67 ≤ b) (runLimiter start ts).2 := by
      haveI : IsTrans ℕ (fun a b => a + 67 ≤ b) := ⟨fun a b c h1 h2 => by omega⟩
      exact List.chain'_iff_pairwise.mp hchain
    exact gap_window_count _ hpw 15 t0 (t0 + 1000) (by omega)

/-- C7 witness: a frame 50 ms after the last processed frame is dropped
with no state change, and a concrete burst of frames arriving every 10 ms
for 2 seconds forwards at most 15 frames into the window starting at its
first arrival. -/
theorem frameRateLimiter_spec_witness :
    frameGateStep 10000 10050 = (10000, false) ∧
    ((runLimiter 0 (List.range 200 |>.map fun i => 10000 + 10 * i)).2.filter fun x =>
        decide (10000 ≤ x) && decide (x < 11000)).length ≤ 15 :=
  frameRateLimiter_spec 10000 10050 (by norm_num [processingFrameRate])
    (List.range 200 |>.map fun i => 10000 + 10 * i) 0 10000

/-! ### Stuck/idle watchdog (`setupStuckDetection` lines 107-127 and the
no-landmarks branch of `onResults`, lines 164-234)

Events on the single-threaded loop, in timestamp order: a pose-model
results callback (`frame`, with or without detected hands) or a 2-second
stuck-detection interval tick (`tick`).  The one-shot 5-second
`noLandmarksTimeout` is modelled by storing its scheduled time
(`deadline`); since its only observable effect is the restart signal and
a state reset, firing it lazily at the first event at or past its
scheduled time is observationally equivalent.  `signals` counts
restart-capture signals (camera stop + delayed `initializeCamera`). -/

/-- Watchdog state: `lastLandmarkTime` (source line 20, updated at the top
of every `onResults`), the scheduled time of the pending
`noLandmarksTimeout` if any (line 21), and the number of restart-capture
signals issued so far. -/
structure WatchState where
  lastLandmarkTime : ℕ
  deadline : Option ℕ
  signals : ℕ
deriving DecidableEq

/-- Initial watchdog state at cold start (fields initialized to 0/null). -/
def watchInit : WatchState := ⟨0, none, 0⟩

/-- Fire the pending `noLandmarksTimeout` if its scheduled time has
arrived by `t`: it signals a camera restart and clears itself
(source lines 226-232). -/
def fireDue (s : WatchState) (t : ℕ) : WatchState :=
  match s.deadline with
  | some d => if d ≤ t then ⟨s.lastLandmarkTime, none, s.signals + 1⟩ else s
  | none => s

/-- Watchdog effect of one `onResults` callback at time `t`
(source lines 164-234): any due timeout fires first; then
`lastLandmarkTime` is set to now and any pending `noLandmarksTimeout` is
cleared (lines 165-171) — with or without hands; if no hands were
detected, a fresh 5-second timeout is scheduled (lines 225-233; the
`!this.noLandmarksTimeout` guard always passes because the handle was
just cleared). -/
def frameWatchStep (s : WatchState) (t : ℕ) (hands : Bool) : WatchState :=
  let s1 := fireDue s t
  if hands then ⟨t, none, s1.signals⟩ else ⟨t, some (t + 5000), s1.signals⟩

/-- Watchdog effect of one stuck-detection interval tick at time `t`
(source lines 109-126): if some callback has ever run and more than
3 seconds passed since the last one, signal a camera restart and clear
any pending `noLandmarksTimeout`. -/
def tickWatchStep (s : WatchState) (t : ℕ) : WatchState :=
  let s1 := fireDue s t
  if s1.lastLandmarkTime ≠ 0 ∧ 3000 < t - s1.lastLandmarkTime then
    ⟨s1.lastLandmarkTime, none, s1.signals + 1⟩
  else s1

/-- A timestamped watchdog event: a results callback or an interval tick. -/
inductive WatchEvent where
  | frame (t : ℕ) (hands : Bool)
  | tick (t : ℕ)
deriving DecidableEq

/-- Run the watchdog over a time-ordered list of events. -/
def runWatch (s : WatchState) : List WatchEvent → WatchState
  | [] => s
  | WatchEvent.frame t hands :: rest => runWatch (frameWatchStep s t hands) rest
  | WatchEvent.tick t :: rest => runWatch (tickWatchStep s t) rest

/-- C8 counterexample trace: from cold start, zero-hands results
callbacks every 2400 ms from t = 1000 to t = 20200 (over 19 seconds with
no hand ever detected), interleaved with the 2-second stuck-detection
ticks. -/
def c8Trace : List WatchEvent :=
  [WatchEvent.frame 1000 false, WatchEvent.tick 2000, WatchEvent.frame 3400 false,
   WatchEvent.tick 4000, WatchEvent.frame 5800 false, WatchEvent.tick 6000,
   WatchEvent.tick 8000, WatchEvent.frame 8200 false, WatchEvent.tick 10000,
   WatchEvent.frame 10600 false, WatchEvent.tick 12000, WatchEvent.frame 13000 false,
   WatchEvent.tick 14000, WatchEvent.frame 15400 false, WatchEvent.tick 16000,
   WatchEvent.frame 17800 false, WatchEvent.tick 18000, WatchEvent.tick 20000,
   WatchEvent.frame 20200 false]

/-- Test that a watchdog event is not a hand detection (a zero-hands
results callback or an interval tick). -/
def WatchEvent.handFree : WatchEvent → Bool
  | WatchEvent.frame _ hands => !hands
  | WatchEvent.tick _ => true

/-- C8 counterexample: processed frames yield zero detected hands for
over 19 consecutive seconds from cold start (every event of the trace is
a zero-hands callback or a tick), yet not a single restart-capture signal
fires — each zero-hands callback cancels and re-arms the 5-second timer,
so it never elapses while frames keep arriving, contradicting the claim
that exactly one signal fires after 5 seconds. -/
theorem c8_no_signal :
    (∀ e ∈ c8Trace, WatchEvent.handFree e = true) ∧
    (runWatch watchInit c8Trace).signals = 0 := by
  constructor
  · decide
  · rfl

/-- C8 amended: every zero-hands results callback at time `t` cancels any
pending no-observation timer and re-arms it for `t + 5000` (the
"no timer already running" guard is vacuous because the handle is cleared
at the top of every callback); a callback with detected hands cancels the
timer without re-arming; an armed timer whose 5 seconds elapse with no
intervening callback fires a restart-capture signal exactly once and
clears itself; concretely, after a single zero-hands callback at cold
start and 5 seconds of silence, the due timer contributes exactly one
signal. -/
theorem c8_amended (s : WatchState) (t : ℕ) (d : ℕ) (hd : s.deadline = some d)
    (hdue : d ≤ t) :
    (∀ s' : WatchState, ∀ u : ℕ, (frameWatchStep s' u false).deadline = some (u + 5000)) ∧
    (∀ s' : WatchState, ∀ u : ℕ, (frameWatchStep s' u true).deadline = none) ∧
    (fireDue s t = ⟨s.lastLandmarkTime, none, s.signals + 1⟩) ∧
    (fireDue (frameWatchStep watchInit 1000 false) 6000).signals = 1 := by
  refine ⟨fun s' u => rfl, fun s' u => rfl, ?_, ?_⟩
  · unfold fireDue
    rw [hd]
    simp [hdue]
  · decide

/-- C8 amended witness: a pending timer due at 6000 fires exactly once at
6000 and clears; a zero-hands callback at 1234 re-arms for 6234; a
with-hands callback cancels; the cold-start scenario signals once. -/
theorem c8_amended_witness :
    (frameWatchStep ⟨77, some 99, 0⟩ 1234 false).deadline = some 6234 ∧
    (frameWatchStep ⟨77, some 99, 0⟩ 1234 true).deadline = none ∧
    fireDue ⟨500, some 5500, 0⟩ 6000 = ⟨500, none, 1⟩ ∧
    (fireDue (frameWatchStep watchInit 1000 false) 6000).signals = 1 := by
  obtain ⟨h1, h2, h3, h4⟩ := c8_amended ⟨500, some 5500, 0⟩ 6000 5500 rfl (by decide)
  exact ⟨h1 ⟨77, some 99, 0⟩ 1234, h2 ⟨77, some 99, 0⟩ 1234, h3, h4⟩

/-- C9 counterexample trace: one successful hand observation at t = 1000,
followed only by zero-hands callbacks every second up to t = 7500,
interleaved with the 2-second stuck-detection ticks up to t = 8000. -/
def c9Trace : List WatchEvent :=
  [WatchEvent.frame 1000 true, WatchEvent.frame 1500 false, WatchEvent.tick 2000,
   WatchEvent.frame 2500 false, WatchEvent.frame 3500 false, WatchEvent.tick 4000,
   WatchEvent.frame 4500 false, WatchEvent.frame 5500 false, WatchEvent.tick 6000,
   WatchEvent.frame 6500 false, WatchEvent.frame 7500 false, WatchEvent.tick 8000]

/-- Test that a watchdog event is a hand detection only at time 1000. -/
def WatchEvent.handOnlyAt1000 : WatchEvent → Bool
  | WatchEvent.frame t hands => !hands || decide (t = 1000)
  | WatchEvent.tick _ => true

/-- C9 counterexample: the last successful hand observation is at
t = 1000 and ticks run at 4000, 6000 and 8000 — each more than 3 seconds
past it — yet no restart-capture signal ever fires, because
`lastLandmarkTime` is refreshed by every results callback (hands or not),
not only by successful hand observations as the claim states. -/
theorem c9_no_signal :
    (∀ e ∈ c9Trace, WatchEvent.handOnlyAt1000 e = true) ∧
    (runWatch watchInit c9Trace).signals = 0 := by
  constructor
  · decide
  · rfl

/-- C9 amended: `lastLandmarkTime` is refreshed by every results callback,
with or without detected hands — not only by successful hand
observations; the liveness check is polled on the 2-second interval and
signals a restart-capture (clearing any pending no-observation timer)
exactly when some callback has occurred and more than 3 seconds have
passed since the last callback of any kind; a poll within 3 seconds of
the last callback adds no liveness signal. -/
theorem c9_amended (s : WatchState) (t : ℕ)
    (hnz : s.lastLandmarkTime ≠ 0) (hstale : 3000 < t - s.lastLandmarkTime) :
    (∀ s' : WatchState, ∀ u : ℕ, ∀ hands : Bool,
      (frameWatchStep s' u hands).lastLandmarkTime = u) ∧
    (tickWatchStep s t = ⟨s.lastLandmarkTime, none, (fireDue s t).signals + 1⟩) ∧
    (∀ d : ℕ, s.deadline = some d → t < d →
      tickWatchStep s t = ⟨s.lastLandmarkTime, none, s.signals + 1⟩) ∧
    (∀ s' : WatchState, ∀ u : ℕ, u - s'.lastLandmarkTime ≤ 3000 →
      tickWatchStep s' u = fireDue s' u) := by
  have hllt : ∀ s' : WatchState, ∀ u : ℕ,
      (fireDue s' u).lastLandmarkTime = s'.lastLandmarkTime := by
    intro s' u
    unfold fireDue
    cases s'.deadline with
    | none => rfl
    | some d => by_cases h : d ≤ u <;> simp [h]
  refine ⟨?_, ?_, ?_, ?_⟩
  · intro s' u hands
    cases hands <;> rfl
  · show (if (fireDue s t).lastLandmarkTime ≠ 0 ∧ 3000 < t - (fireDue s t).lastLandmarkTime
        then ⟨(fireDue s t).lastLandmarkTime, none, (fireDue s t).signals + 1⟩
        else fireDue s t) = (⟨s.lastLandmarkTime, none, (fireDue s t).signals + 1⟩ : WatchState)
    rw [hllt s t, if_pos ⟨hnz, hstale⟩]
  · intro d hd hlt
    have hfd : fireDue s t = s := by
      simp only [fireDue, hd]
      rw [if_neg (by omega)]
    unfold tickWatchStep
    rw [hfd, if_pos ⟨hnz, hstale⟩]
  · intro s' u hfresh
    show (if (fireDue s' u).lastLandmarkTime ≠ 0 ∧ 3000 < u - (fireDue s' u).lastLandmarkTime
        then ⟨(fireDue s' u).lastLandmarkTime, none, (fireDue s' u).signals + 1⟩
        else fireDue s' u) = fireDue s' u
    rw [hllt s' u, if_neg (by omega)]

/-- C9 amended witness: a zero-hands callback at 4321 still refreshes
`lastLandmarkTime`; after a zero-hands frame at 1000 armed the
no-observation timer for 6000, the tick at 4100 — the timer still pending
and not yet due — signals exactly once and clears the pending timer; a
tick at 3000 with last callback at 1000 contributes no liveness signal
(it equals the bare due-timeout effect, here a no-op). -/
theorem c9_amended_witness :
    (frameWatchStep ⟨77, none, 0⟩ 4321 false).lastLandmarkTime = 4321 ∧
    tickWatchStep ⟨1000, some 6000, 0⟩ 4100 =
      ⟨1000, none, (fireDue ⟨1000, some 6000, 0⟩ 4100).signals + 1⟩ ∧
    tickWatchStep ⟨1000, some 6000, 0⟩ 4100 = ⟨1000, none, 1⟩ ∧
    tickWatchStep ⟨1000, some 9000, 0⟩ 3000 = fireDue ⟨1000, some 9000, 0⟩ 3000 := by
  obtain ⟨h1, h2, h3, h4⟩ := c9_amended ⟨1000, some 6000, 0⟩ 4100 (by decide) (by decide)
  exact ⟨h1 ⟨77, none, 0⟩ 4321 false, h2, h3 6000 rfl (by decide),
    h4 ⟨1000, some 9000, 0⟩ 3000 (by decide)⟩

/-! ### Component-level gesture throttle
(`throttledGestureDetection` in HandGestureDetector.tsx, lines 34-55) -/

/-- One invocation of `throttledGestureDetection` at time `now` with the
reported gesture, the `disabled` prop and the calibration lock: returns
the new `lastGestureTimeRef` value and, when the gesture is accepted, the
single scheduled forwarding to `onGestureDetected` as
`(now + 200, gesture)` — the callback runs once, 200 ms later.  A
discarded gesture (disabled, locked, too soon, or nonpositive) changes
nothing and forwards nothing. -/
def throttledGestureDetection (disabled calibrationLock : Bool)
    (lastGestureTime now gesture : ℕ) : ℕ × Option (ℕ × ℕ) :=
  if disabled then (lastGestureTime, none)
  else if calibrationLock then (lastGestureTime, none)
  else if 500 < now - lastGestureTime ∧ 0 < gesture then
    (now, some (now + 200, gesture))
  else (lastGestureTime, none)

/-- Run the throttle over a list of reported gestures
`(disabled, lock, now, gesture)`, collecting the forwarded game inputs as
`(forward time, gesture)` pairs. -/
def runThrottle (lastGestureTime : ℕ) :
    List (Bool × Bool × ℕ × ℕ) → ℕ × List (ℕ × ℕ)
  | [] => (lastGestureTime, [])
  | (d, lk, t, g) :: rest =>
    let (last', out) := throttledGestureDetection d lk lastGestureTime t g
    let (lastF, outs) := runThrottle last' rest
    (lastF, (match out with | some o => [o] | none => []) ++ outs)

/-- Forwarded inputs of a throttle run: each forward time exceeds
`last + 700` and consecutive ones are more than 500 ms apart (the accept
guard itself enforces the gap, with the uniform 200 ms delay added to
both). -/
theorem runThrottle_chain (evts : List (Bool × Bool × ℕ × ℕ)) : ∀ last : ℕ,
    List.Chain' (fun a b : ℕ × ℕ => a.1 + 500 < b.1) (runThrottle last evts).2 ∧
    ∀ o ∈ (runThrottle last evts).2, last + 700 < o.1 := by
  induction evts with
  | nil => intro last; exact ⟨List.chain'_nil, by simp [runThrottle]⟩
  | cons e rest ih =>
    intro last
    obtain ⟨d, lk, t, g⟩ := e
    by_cases hacc : d = false ∧ lk = false ∧ (500 < t - last ∧ 0 < g)
    · obtain ⟨hd, hlk, hcond⟩ := hacc
      have hstep : throttledGestureDetection d lk last t g = (t, some (t + 200, g)) := by
        unfold throttledGestureDetection
        rw [hd, hlk]
        simp only [Bool.false_eq_true, if_false]
        rw [if_pos hcond]
      obtain ⟨hchain, hbound⟩ := ih t
      rcases hres : runThrottle t rest with ⟨lastF, outs⟩
      rw [hres] at hchain hbound
      have hrun : runThrottle last ((d, lk, t, g) :: rest) = (lastF, (t + 200, g) :: outs) := by
        simp [runThrottle, hstep, hres]
      rw [hrun]
      have hgap : last + 500 < t := by omega
      refine ⟨?_, ?_⟩
      · cases outs with
        | nil => simp
        | cons a l =>
          have := hbound a (List.mem_cons_self a l)
          exact List.Chain'.cons (by omega) hchain
      · intro o ho
        rcases List.mem_cons.mp ho with h1 | h2
        · rw [h1]; omega
        · have := hbound o h2; omega
    · have hstep : (throttledGestureDetection d lk last t g).1 = last ∧
          (throttledGestureDetection d lk last t g).2 = none := by
        unfold throttledGestureDetection
        rcases d with _ | _
        · rcases lk with _ | _
          · have hna : ¬ (500 < t - last ∧ 0 < g) := fun hc => hacc ⟨rfl, rfl, hc⟩
            rw [if_neg (by simp), if_neg (by simp), if_neg hna]
            exact ⟨rfl, rfl⟩
          · rw [if_neg (by simp), if_pos rfl]
            exact ⟨rfl, rfl⟩
        · rw [if_pos rfl]
          exact ⟨rfl, rfl⟩
      rcases hres : runThrottle last rest with ⟨lastF, outs⟩
      have hrun : runThrottle last ((d, lk, t, g) :: rest) = (lastF, outs) := by
        rcases hst : throttledGestureDetection d lk last t g with ⟨l', o'⟩
        rw [hst] at hstep
        simp only at hstep
        simp [runThrottle, hst, hstep.1, hstep.2, hres]
      rw [hrun]
      have := ih last
      rw [hres] at this
      exact this

/-- C10: (a) a gesture reported while the component is disabled or while
the calibration lock is held is silently discarded with no state change;
(b) a gesture reported at most 500 ms after the previously accepted
gesture is discarded (in particular any gesture less than 500 ms after
it); (c) an accepted gesture is forwarded exactly once, 200 ms later; and
(d) over any run, the forwarded game inputs are pairwise more than
500 ms apart. -/
theorem throttledGestureDetection_spec (last now gesture : ℕ)
    (hsoon : now - last ≤ 500) (evts : List (Bool × Bool × ℕ × ℕ)) (start : ℕ)
    (now' gesture' : ℕ) (hokt : 500 < now' - last) (hokg : 0 < gesture') :
    (∀ lk : Bool, throttledGestureDetection true lk last now gesture = (last, none)) ∧
    (throttledGestureDetection false true last now gesture = (last, none)) ∧
    (throttledGestureDetection false false last now gesture = (last, none)) ∧
    (throttledGestureDetection false false last now' gesture' =
      (now', some (now' + 200, gesture'))) ∧
    List.Pairwise (fun a b : ℕ × ℕ => a.1 + 500 < b.1) (runThrottle start evts).2 := by
  refine ⟨?_, ?_, ?_, ?_, ?_⟩
  · intro lk
    unfold throttledGestureDetection
    rw [if_pos rfl]
  · unfold throttledGestureDetection
    rw [if_neg (by simp), if_pos rfl]
  · unfold throttledGestureDetection
    rw [if_neg (by simp), if_neg (by simp), if_neg (by omega)]
  · unfold throttledGestureDetection
    rw [if_neg (by simp), if_neg (by simp), if_pos ⟨hokt, hokg⟩]
  · haveI : IsTrans (ℕ × ℕ) (fun a b : ℕ × ℕ => a.1 + 500 < b.1) :=
      ⟨fun a b c h1 h2 => by omega⟩
    exact List.chain'_iff_pairwise.mp (runThrottle_chain evts start).1

/-- C10 witness: with the previous acceptance at t = 1000, a gesture at
1400 (400 ms later) is discarded in every gating mode, one at 1600 is
forwarded once as (1800, 3), and the forwarded inputs of a concrete burst
(gestures every 100 ms) are pairwise more than 500 ms apart. -/
theorem throttledGestureDetection_spec_witness :
    (throttledGestureDetection true false 1000 1400 3 = (1000, none)) ∧
    (throttledGestureDetection false true 1000 1400 3 = (1000, none)) ∧
    (throttledGestureDetection false false 1000 1400 3 = (1000, none)) ∧
    (throttledGestureDetection false false 1000 1600 3 = (1600, some (1800, 3))) ∧
    List.Pairwise (fun a b : ℕ × ℕ => a.1 + 500 < b.1)
      (runThrottle 0 ((List.range 20).map fun i => (false, false, 1000 + 100 * i, 2))).2 := by
  obtain ⟨h1, h2, h3, h4, h5⟩ :=
    throttledGestureDetection_spec 1000 1400 3 (by decide)
      ((List.range 20).map fun i => (false, false, 1000 + 100 * i, 2)) 0 1600 3
      (by decide) (by decide)
  exact ⟨h1 false, h2, h3, h4, h5⟩

end HandCricket
